import Mathlib

/-!
# Teleworker job supervisor: verification of the core components

Shallow embedding of the teleworker job supervisor (packages `worker` and
`workergrpc`): the Job output/exit-code state, the Worker registry, the
runner orchestration, the cgroup writes of the child-exec entrypoint, and
the RPC adapter's lookup and streaming logic. Byte buffers are modelled as
`List Nat`, lengths and offsets as `Nat` (Go `int` offsets below zero panic
at the slice expressions and are outside the model), and exit codes as
`Option Int` (`none` = still running, mirroring the `*int` field).

The file has two parts: first the definitions translated from the source,
then the theorems about them.
-/

namespace Teleworker

/-! ## Definitions -/

/-- Result tuple of `Job.readOutput` (src/worker/job.go): the bytes copied
into the caller's buffer, the count of bytes read, the total length of the
selected stream, the exit-code snapshot, and whether the out-of-bounds error
was returned. -/
structure ReadResult where
  data : List Nat
  read : Nat
  total : Nat
  exitCode : Option Int
  err : Bool
deriving Repr, DecidableEq

/-- `Job.readOutput` (src/worker/job.go lines 93-111). `out` is the stream
buffer already selected by the `stderr` flag (stdout or stderr), `ec` the
job's current exit code, `blen` the length of the caller's byte slice `b`,
and `offset` the read offset. Go's `copy(b, out[offset:])` transfers
`min blen (total - offset)` bytes; the error is produced only inside the
`len(b) > 0` branch. -/
def readOutput (out : List Nat) (ec : Option Int) (blen : Nat) (offset : Nat) : ReadResult :=
  let total := out.length
  if 0 < blen then
    if offset > total then
      { data := [], read := 0, total := total, exitCode := ec, err := true }
    else
      { data := (out.drop offset).take blen, read := min blen (total - offset),
        total := total, exitCode := ec, err := false }
  else
    { data := [], read := 0, total := total, exitCode := ec, err := false }

/-- The mutable Job state guarded by `updateLock`: the two append-only
buffers and the exit code (src/worker/job.go lines 36-39). -/
structure JobBuffers where
  stdout : List Nat
  stderr : List Nat
  exitCode : Option Int
deriving Repr, DecidableEq

/-- One atomic mutation of the job state: `updateOutput` on one stream, or
`markDone` with the final exit code. -/
inductive JobEvent where
  | output (stderr : Bool) (chunk : List Nat)
  | done (code : Int)
deriving Repr, DecidableEq

/-- Apply one event: `updateOutput` appends to the selected buffer
(src/worker/job.go lines 172-191); `markDone` sets the exit code
(src/worker/job.go lines 195-207). Listener notification carries no data and
does not change this state. -/
def applyEvent (s : JobBuffers) : JobEvent → JobBuffers
  | .output true c => { s with stderr := s.stderr ++ c }
  | .output false c => { s with stdout := s.stdout ++ c }
  | .done code => { s with exitCode := some code }

/-- Run a sequence of job events from a starting state. -/
def runTrace (s : JobBuffers) (t : List JobEvent) : JobBuffers :=
  t.foldl applyEvent s

/-- An interleaving of two sequences chosen by a boolean schedule: `true`
takes from the first list when possible. Each source list's own order is
preserved, which is exactly the per-goroutine program order of the two pump
loops. -/
def mix (α : Type) : List Bool → List α → List α → List α
  | [], xs, ys => xs ++ ys
  | _ :: r, [], ys =>
    match ys with
    | [] => []
    | y :: ys => y :: mix α r [] ys
  | b :: r, x :: xs, ys =>
    if b then x :: mix α r xs ys
    else
      match ys with
      | [] => x :: xs
      | y :: ys => y :: mix α r (x :: xs) ys

/-- The set of event traces `startCmd` (src/worker/runner.go lines 60-113)
can produce for a job whose stdout pipe yields the chunks `outs` and whose
stderr pipe yields `errs`: any interleaving of the two pump loops' appends
(`startPipe`, lines 116-139), then the reaper's single `markDone code`. The
trailing position of `done` encodes the reaper blocking on
`<-stdoutCh; <-stderrCh` before `cmd.Wait()` (lines 79-95). -/
def startCmdTrace (outs errs : List (List Nat)) (sched : List Bool) (code : Int) :
    List JobEvent :=
  mix JobEvent sched (outs.map (JobEvent.output false)) (errs.map (JobEvent.output true))
    ++ [JobEvent.done code]

/-- Whether an event is an output append (not `markDone`). -/
def isOutputEvent : JobEvent → Bool
  | .output _ _ => true
  | .done _ => false

/-- The identity and snapshot state of one Job record (src/worker/job.go
lines 12-41; `CreatedAt` is a wall-clock timestamp outside the model). -/
structure JobRec where
  ns : String
  id : String
  command : String
  args : List String
  rootFS : String
  pid : Int
  stdout : List Nat
  stderr : List Nat
  exitCode : Option Int
deriving Repr, DecidableEq

/-- The flattened `(namespace, id) → *Job` registry of the Worker
(src/worker/worker.go: `jobs map[string]map[string]*Job`); `none` is the
`nil` placeholder reserved by `SubmitJob`. Lookup of a missing namespace or
id yields `none` exactly as the Go nested-map lookup yields `nil`. -/
def Registry : Type := List ((String × String) × Option JobRec)

/-- Registry lookup: `w.jobs[namespace][id]` together with the `exists`
distinction — `none` means no entry at all, `some none` the placeholder,
`some (some j)` a started job. -/
def findJob : Registry → String × String → Option (Option JobRec)
  | [], _ => none
  | (k, v) :: rest, key => if k = key then some v else findJob rest key

/-- `delete(w.jobs[namespace], id)`. -/
def eraseJob : Registry → String × String → Registry
  | [], _ => []
  | (k, v) :: rest, key =>
    if k = key then eraseJob rest key else (k, v) :: eraseJob rest key

/-- `w.jobs[namespace][id] = v` (map update). -/
def setJob (r : Registry) (key : String × String) (v : Option JobRec) : Registry :=
  (key, v) :: eraseJob r key

/-- Worker state (src/worker/worker.go): runner choice recorded as
`hasLimits`, the jobs registry, and the shutdown flag. -/
structure WorkerState where
  hasLimits : Bool
  jobs : Registry
  shutdown : Bool

/-- Errors a Worker call can produce. -/
inductive WorkerErr where
  | errShutdown
  | errIDAlreadyExists
  | rootFSNotAllowed
  | startFailed
deriving Repr, DecidableEq

/-- A fresh Job as built by `newJob` (src/worker/job.go lines 54-69). -/
def newJobRec (ns id command : String) (args : List String) : JobRec :=
  { ns := ns, id := id, command := command, args := args, rootFS := "", pid := 0,
    stdout := [], stderr := [], exitCode := none }

/-- The reservation step of `SubmitJob` (src/worker/worker.go: "Put nil in
the map to confirm ID not in use and hold ID spot"): under the jobs write
lock, check presence and insert the placeholder only when the key is free.
Returns the state and the `exists` flag. -/
def submitReserve (w : WorkerState) (key : String × String) : WorkerState × Bool :=
  match findJob w.jobs key with
  | some _ => (w, true)
  | none => ({ w with jobs := (key, none) :: w.jobs }, false)

/-- `Worker.SubmitJob` (src/worker/worker.go lines 99-147). The runner is
abstracted by `startOK` (whether `runner.start` succeeds) and `pid` (the pid
it records); `freshId` stands in for the generated UUID when `id` is empty;
`rootFS` is the `WithRootFS` option. The third component of the result
records whether `runner.start` was invoked (a process launch was attempted).
The failure paths run the deferred `delete(w.jobs[namespace], id)`. -/
def SubmitJob (w : WorkerState) (ns id command : String) (args : List String)
    (rootFS : Option String) (freshId : String) (startOK : Bool) (pid : Int) :
    Except WorkerErr JobRec × WorkerState × Bool :=
  if w.shutdown then (.error .errShutdown, w, false)
  else
    let id := if id = "" then freshId else id
    let res := submitReserve w (ns, id)
    if res.2 then (.error .errIDAlreadyExists, w, false)
    else
      let w1 := res.1
      let job := { newJobRec ns id command args with rootFS := rootFS.getD "" }
      if w.hasLimits = false ∧ job.rootFS ≠ "" then
        (.error .rootFSNotAllowed, { w1 with jobs := eraseJob w1.jobs (ns, id) }, false)
      else if startOK then
        let started := { job with pid := pid }
        (.ok started, { w1 with jobs := setJob w1.jobs (ns, id) (some started) }, true)
      else
        (.error .startFailed, { w1 with jobs := eraseJob w1.jobs (ns, id) }, true)

/-- `Worker.GetJob` (src/worker/worker.go lines 75-84): read-locked lookup
returning the job or `none` (both for a missing key and for the `nil`
placeholder) with no error, or `ErrShutdown`. -/
def GetJob (w : WorkerState) (ns id : String) : Except WorkerErr (Option JobRec) :=
  if w.shutdown then .error .errShutdown
  else
    .ok (match findJob w.jobs (ns, id) with
         | some (some j) => some j
         | _ => none)

/-- Outcome of a `Shutdown` call: `ErrShutdown`, the context's error, or
`nil`. -/
inductive ShutdownOutcome where
  | errShutdown
  | ctxErr
  | ok
deriving Repr, DecidableEq

/-- `ctx.Err()`: the context error when the context is done, `nil`
otherwise. -/
def ctxErrVal (ctxDone : Bool) : ShutdownOutcome :=
  if ctxDone then .ctxErr else .ok

/-- `Worker.Shutdown` (the revised copy bundled in src/worker/runner_linux.go
at lines 570-621): CAS the shutdown flag, detach the jobs map, stop every job
concurrently, wait for the drain or the context, then decide the result.
`alreadyShutdown` is the prior value of the shutdown flag, `noJobs` whether
the detached map is empty (eager `nil` return), `ctxDone` / `wgDone` whether
the context channel / drain wait-group channel are closed once the blocking
select has resolved and the second non-blocking select runs:
`select { case <-wgDone: return nil; default: return ctx.Err() }` — a ready
`wgDone` always wins over `default`. -/
def Shutdown (alreadyShutdown noJobs ctxDone wgDone : Bool) : ShutdownOutcome :=
  if alreadyShutdown then .errShutdown
  else if noJobs then .ok
  else if wgDone then .ok
  else ctxErrVal ctxDone

/-- A lock operation performed by `Worker.GetJob` on the worker's two
reader-writer locks. -/
inductive LockOp where
  | shutdownRLock
  | shutdownRUnlock
  | jobsRLock
  | jobsRUnlock
deriving Repr, DecidableEq

/-- The exact sequence of lock operations a `GetJob` call performs
(src/worker/worker.go lines 75-84), by the two paths of the function (early
`ErrShutdown` return or the lookup). The body reads
`w.shutdownLock.RLock(); defer w.shutdownLock.RLock(); ...
w.jobsLock.RLock(); defer w.jobsLock.RUnlock()` — the deferred call
re-acquires the shutdown read lock instead of releasing it, and deferred
calls run in LIFO order at return. -/
def getJobLockTrace (shutdown : Bool) : List LockOp :=
  if shutdown then [.shutdownRLock, .shutdownRLock]
  else [.shutdownRLock, .jobsRLock, .jobsRUnlock, .shutdownRLock]

/-- The job's three one-shot cancellation sentinels plus the stored exit
code. A `context.CancelFunc` is idempotent and can only move a sentinel from
unfired to fired. -/
structure StopSentinels where
  stopFired : Bool
  forceFired : Bool
  doneFired : Bool
  exitCode : Option Int
deriving Repr, DecidableEq

/-- Result of `Job.Stop`: the returned code and whether the ctx-cancellation
error was returned. -/
structure StopRet where
  code : Int
  ctxCancelled : Bool
deriving Repr, DecidableEq

/-- `Job.Stop` (src/worker/job.go lines 142-157): cancel the force or soft
sentinel first, then `select { case <-ctx.Done(): return 0, ctx.Err();
case <-j.doneCtx.Done(): return *j.ExitCode(), nil }`. `ctxDone` says
whether the caller's context is cancelled when the select resolves;
`pickCtx` resolves the choice when both channels are ready (the select
blocks until at least one is; the exit code is never nil on the done branch,
modelled with `getD`). -/
def JobStop (s : StopSentinels) (force : Bool) (ctxDone pickCtx : Bool) :
    StopRet × StopSentinels :=
  let s' := if force then { s with forceFired := true } else { s with stopFired := true }
  if ctxDone && (pickCtx || !s'.doneFired) then
    ({ code := 0, ctxCancelled := true }, s')
  else
    ({ code := s'.exitCode.getD (-1), ctxCancelled := false }, s')

/-- The resource limits and root mount carried in the child-exec JSON blob
(`jobLimitArgs` embedding `JobResourceLimits`, src/worker/runner.go lines
21-32 and src/worker/runner_linux.go lines 15-18). The device map is
modelled as an ordered association list since Go map iteration order is
arbitrary. -/
structure JobLimitArgsM where
  cpuMaxPeriod : Nat
  cpuMaxQuota : Nat
  memoryMax : Nat
  deviceIOMax : List (String × Nat)
  rootMount : String
deriving Repr, DecidableEq

/-- `writeCGroupSettings` (src/worker/runner_linux.go, revised copy at
bundle lines 395-410): the directory created and the ordered (file, value)
writes it performs when every step succeeds — the given settings followed by
the self-join append `settings = append(settings,
[]string{"cgroup.procs", "0"})`. -/
def writeCGroupSettings (containerID controller : String)
    (settings : List (String × String)) : String × List (String × String) :=
  ("/sys/fs/cgroup/" ++ controller ++ "/teleworker/" ++ containerID,
   settings ++ [("cgroup.procs", "0")])

/-- The newline-separated `"<dev>  <bps>"` entries for the blkio throttle
files (`readLimits` / `writeLimits` builders in `ExecLimitedChild`). -/
def deviceLimitsString (devs : List (String × Nat)) : String :=
  devs.foldl (fun acc d =>
    let str := d.1 ++ "  " ++ toString d.2
    if acc = "" then str else acc ++ "\n" ++ str) ""

/-- The cgroup batches `ExecLimitedChild` performs (src/worker/runner_linux.go,
revised copy at bundle lines 284-343), as (controller, settings) pairs in
program order: cpu when both period and quota are positive, memory when the
max is positive, blkio when the device map is non-empty. -/
def execLimitedChildCGroupBatches (la : JobLimitArgsM) :
    List (String × List (String × String)) :=
  (if la.cpuMaxPeriod > 0 ∧ la.cpuMaxQuota > 0 then
    [("cpu", [("cpu.cfs_period_us", toString la.cpuMaxPeriod),
              ("cpu.cfs_quota_us", toString la.cpuMaxQuota)])]
   else []) ++
  (if la.memoryMax > 0 then
    [("memory", [("memory.limit_in_bytes", toString la.memoryMax),
                 ("memory.memsw.limit_in_bytes", toString la.memoryMax)])]
   else []) ++
  (if la.deviceIOMax ≠ [] then
    [("blkio", [("blkio.throttle.read_bps_device", deviceLimitsString la.deviceIOMax),
                ("blkio.throttle.write_bps_device", deviceLimitsString la.deviceIOMax)])]
   else [])

/-- gRPC status codes used by the service adapter. -/
inductive StatusCode where
  | invalidArgument
  | notFound
  | alreadyExists
  | failedPrecondition
  | deadlineExceeded
  | unauthenticated
  | unknownErr
deriving Repr, DecidableEq

/-- `namespaceFromContext` (src/workergrpc/service.go lines 62-76): the
peer's client certificate is modelled as `Option (List String)` of OU
values; a present certificate with an empty OU list yields the empty
namespace, a missing certificate yields `Unauthenticated`. -/
def namespaceFromContext (cert : Option (List String)) : Except StatusCode String :=
  match cert with
  | some ous => .ok (ous.headD "")
  | none => .error .unauthenticated

/-- The `getJob` helper of the service (src/workergrpc/service.go lines
43-60): required id, namespace from the certificate, worker lookup;
`ErrShutdown` becomes `FailedPrecondition`, a nil job becomes `NotFound`.
`GetJob` can only fail with `ErrShutdown`, other worker errors would pass
through unchanged (modelled as `unknownErr`). -/
def svcGetJob (w : WorkerState) (cert : Option (List String)) (id : String) :
    Except StatusCode JobRec :=
  if id = "" then .error .invalidArgument
  else
    match namespaceFromContext cert with
    | .error e => .error e
    | .ok ns =>
      match GetJob w ns id with
      | .error .errShutdown => .error .failedPrecondition
      | .error _ => .error .unknownErr
      | .ok none => .error .notFound
      | .ok (some j) => .ok j

/-- The proto `Job` message assembled by `toProtoJob`
(src/workergrpc/service.go lines 78-105; `created_at` is a timestamp outside
the model). -/
structure ProtoJob where
  id : String
  command : List String
  rootFS : String
  pid : Int
  stdout : List Nat
  stderr : List Nat
  exitCode : Option Int
deriving Repr, DecidableEq

/-- `allOutput` (src/workergrpc/service.go lines 107-120): repeatedly read
1024-byte chunks from offset 0 until a read returns 0 bytes, concatenating
the chunks. The job snapshot `(out, ec)` is fixed for the call; the loop
advances by the amount read, so `out.length + 1` fuel always suffices. -/
def allOutput (out : List Nat) (ec : Option Int) : Nat → Nat → List Nat
  | 0, _ => []
  | fuel + 1, offset =>
    let r := readOutput out ec 1024 offset
    if r.read = 0 ∨ r.err then []
    else r.data ++ allOutput out ec fuel (offset + r.read)

/-- `toProtoJob` (src/workergrpc/service.go lines 78-105): identity fields,
the exit code snapshot taken before the output drain, and stdout/stderr only
when requested. -/
def toProtoJob (j : JobRec) (includeStdout includeStderr : Bool) : ProtoJob :=
  { id := j.id, command := j.command :: j.args, rootFS := j.rootFS, pid := j.pid,
    stdout := if includeStdout then allOutput j.stdout j.exitCode (j.stdout.length + 1) 0 else [],
    stderr := if includeStderr then allOutput j.stderr j.exitCode (j.stderr.length + 1) 0 else [],
    exitCode := j.exitCode }

/-- The `GetJob` RPC (src/workergrpc/service.go lines 28-40): lookup through
the `getJob` helper, then conversion. -/
def rpcGetJob (w : WorkerState) (cert : Option (List String)) (jobId : String)
    (includeStdout includeStderr : Bool) : Except StatusCode ProtoJob :=
  match svcGetJob w cert jobId with
  | .error e => .error e
  | .ok j => .ok (toProtoJob j includeStdout includeStderr)

/-- The `StopJob` RPC (src/workergrpc/service.go lines 170-195): lookup, a
`FailedPrecondition` when the job is already complete, then `Job.Stop` under
a 3-second sub-context — abstracted by `stopDeadline` (whether the bounded
context fired before the job completed, yielding `DeadlineExceeded`). The
returned proto is built from the per-call job snapshot. -/
def rpcStopJob (w : WorkerState) (cert : Option (List String)) (jobId : String)
    (stopDeadline : Bool) : Except StatusCode ProtoJob :=
  match svcGetJob w cert jobId with
  | .error e => .error e
  | .ok j =>
    if j.exitCode ≠ none then .error .failedPrecondition
    else if stopDeadline then .error .deadlineExceeded
    else .ok (toProtoJob j false false)

/-- One data frame of the `StreamJobOutput` response stream (the terminal
`completed_exit_code` frame is separate). -/
structure Frame where
  stderr : Bool
  data : List Nat
  past : Bool
deriving Repr, DecidableEq

/-- The `StreamJobOutput` RPC entry (src/workergrpc/service.go lines
197-251): the `getJob` lookup error short-circuits the stream; the
producer/sender machinery that runs on success is abstracted by `rest`. -/
def rpcStreamJobOutput (w : WorkerState) (cert : Option (List String)) (jobId : String)
    (rest : JobRec → Except StatusCode (List Frame)) : Except StatusCode (List Frame) :=
  match svcGetJob w cert jobId with
  | .error e => .error e
  | .ok j => rest j

/-- The fixed read-chunk size of the streaming producer
(src/workergrpc/service.go: `const chunkSize = 1024`). -/
def chunkSize : Nat := 1024

/-- The past-reading loop of `streamOutput` (src/workergrpc/service.go lines
274-301): while `offset < pastTotal`, read `min chunkSize (pastTotal -
offset)` bytes and emit the whole freshly allocated buffer `b` (zero-padded
if the read came up short, which cannot happen on a monotone job). `obs k`
is the job snapshot the k-th `readFn` call observes (reads hold the job
lock, so each is one consistent snapshot); the result is the emitted chunks
and the next read index, or `none` on a read error or fuel exhaustion. -/
def pastLoop (obs : Nat → List Nat × Option Int) (pastTotal : Nat) :
    Nat → Nat → Nat → Option (List (List Nat) × Nat)
  | 0, _, _ => none
  | fuel + 1, k, offset =>
    if offset < pastTotal then
      let amountWanted := min chunkSize (pastTotal - offset)
      let r := readOutput (obs k).1 (obs k).2 amountWanted offset
      if r.err then none
      else
        match pastLoop obs pastTotal fuel (k + 1) (offset + r.read) with
        | none => none
        | some (rest, k') =>
          some ((r.data ++ List.replicate (amountWanted - r.read) 0) :: rest, k')
    else some ([], k)

/-- The live loop of `streamOutput` (src/workergrpc/service.go lines
302-354): read a `chunkSize` buffer, emit a fresh copy of the bytes read (if
any), return as soon as the read's exit-code snapshot is set, otherwise
continue draining (or, when the read was empty, wait for a listener update —
in this model simply the next observation). -/
def liveLoop (obs : Nat → List Nat × Option Int) :
    Nat → Nat → Nat → Option (List (List Nat))
  | 0, _, _ => none
  | fuel + 1, k, offset =>
    let r := readOutput (obs k).1 (obs k).2 chunkSize offset
    if r.err then none
    else
      let fr := if r.read > 0 then [r.data] else []
      if r.exitCode ≠ none then some fr
      else
        match liveLoop obs fuel (k + 1) (offset + r.read) with
        | none => none
        | some rest => some (fr ++ rest)

/-- The per-stream producer `streamOutput` (src/workergrpc/service.go lines
253-355): an eager nil-buffer read snapshots `pastTotal`, the past loop runs
when `from_beginning` is set, then the live loop starts at
`offset = pastTotal`. Past frames precede live frames for the stream. -/
def streamOutput (stderr : Bool) (obs : Nat → List Nat × Option Int)
    (fromBeginning : Bool) (fuel : Nat) : Option (List Frame) :=
  let pastTotal := (readOutput (obs 0).1 (obs 0).2 0 0).total
  if fromBeginning then
    match pastLoop obs pastTotal fuel 1 0 with
    | none => none
    | some (pastChunks, k) =>
      match liveLoop obs fuel k pastTotal with
      | none => none
      | some liveChunks =>
        some (pastChunks.map (fun d => { stderr := stderr, data := d, past := true }) ++
              liveChunks.map (fun d => { stderr := stderr, data := d, past := false }))
  else
    match liveLoop obs fuel 1 pastTotal with
    | none => none
    | some liveChunks =>
      some (liveChunks.map (fun d => { stderr := stderr, data := d, past := false }))

/-- Concatenation of the data of all `past = true` frames, in order. -/
def pastConcat (fs : List Frame) : List Nat :=
  fs.foldr (fun f acc => if f.past then f.data ++ acc else acc) []

/-- Concatenation of the data of all frames, in order. -/
def allConcat (fs : List Frame) : List Nat :=
  fs.foldr (fun f acc => f.data ++ acc) []

/-- The observation schedule of the C1 failing run: the producer's eager
`pastTotal` read sees an empty, still-running stream; by the time of every
later read the job has appended 1025 bytes and completed. The job itself
evolves monotonically (buffer grows once, exit code set once), so this is a
reachable interleaving of the producer with the pumps and reaper. -/
def lateBurstObs : Nat → List Nat × Option Int
  | 0 => ([], none)
  | _ + 1 => (List.replicate 1025 7, some 0)

/-! ## Theorems -/

/-- C6 counterexample: a read with an empty buffer and `offset = 1` on a
stream of total length `0` has `offset > total` yet returns no error, because
`readOutput` only checks the offset inside its `len(b) > 0` branch. The claim
"if offset is greater than the current total length it returns an error"
is therefore false as stated. -/
theorem readOutput_offset_gt_total_no_error :
    (readOutput [] none 0 1).err = false ∧ 1 > ([] : List Nat).length := by
  constructor
  · rfl
  · decide

/-- C6 (amended): a read at `offset = total` returns `read = 0`, the total,
and the exit code with no error; a read at `offset > total` errors when the
caller's buffer is non-empty; a read with an empty buffer never errors and
only reports the total and exit code. -/
theorem readOutput_bounds (out : List Nat) (ec : Option Int) (blen offset : Nat) :
    (offset = out.length →
      readOutput out ec blen offset =
        { data := [], read := 0, total := out.length, exitCode := ec, err := false }) ∧
    (offset > out.length → 0 < blen → (readOutput out ec blen offset).err = true) ∧
    (blen = 0 →
      readOutput out ec blen offset =
        { data := [], read := 0, total := out.length, exitCode := ec, err := false }) := by
  refine ⟨fun h => ?_, fun h hb => ?_, fun h => ?_⟩
  · subst h
    unfold readOutput
    by_cases hb : 0 < blen
    · simp [hb, List.drop_length]
    · simp [hb]
  · unfold readOutput
    simp [hb, h, Nat.not_le.mpr h]
  · subst h
    unfold readOutput
    simp

/-- Witness for `readOutput_bounds` at a concrete input. -/
theorem readOutput_bounds_witness :
    readOutput [3] none 2 1 =
      { data := [], read := 0, total := 1, exitCode := none, err := false } :=
  (readOutput_bounds [3] none 2 1).1 rfl

/-- Every event of an interleaving satisfies a predicate both sources
satisfy. -/
theorem mix_all (p : JobEvent → Bool) :
    ∀ (sched : List Bool) (xs ys : List JobEvent),
      xs.all p = true → ys.all p = true → (mix JobEvent sched xs ys).all p = true := by
  intro sched
  induction sched with
  | nil =>
    intro xs ys hx hy
    simp only [mix, List.all_append]
    exact And.intro hx hy |> fun h => by simp [hx, hy]
  | cons b r ih =>
    intro xs ys hx hy
    match xs, ys with
    | [], [] => simp [mix]
    | [], y :: ys =>
      simp only [List.all_cons, Bool.and_eq_true] at hy
      simpa [mix, hy.1] using ih [] ys rfl hy.2
    | x :: xs, ys =>
      simp only [List.all_cons, Bool.and_eq_true] at hx
      cases b with
      | true => simpa [mix, hx.1] using ih xs ys hx.2 hy
      | false =>
        match ys with
        | [] => simpa [mix, hx.1] using hx.2
        | y :: ys =>
          simp only [List.all_cons, Bool.and_eq_true] at hy
          simpa [mix, hy.1] using ih (x :: xs) ys (by simp [hx.1, hx.2]) hy.2

/-- Output events never change the exit code. -/
theorem runTrace_exitCode_of_all_output (t : List JobEvent) (s : JobBuffers)
    (h : t.all isOutputEvent = true) : (runTrace s t).exitCode = s.exitCode := by
  induction t generalizing s with
  | nil => rfl
  | cons e t ih =>
    simp only [List.all_cons, Bool.and_eq_true] at h
    have : (applyEvent s e).exitCode = s.exitCode := by
      cases e with
      | output st c => cases st <;> rfl
      | done code => simp [isOutputEvent] at h
    simpa [runTrace, List.foldl_cons, this] using (ih (applyEvent s e) h.2).trans this

/-- Buffer lengths never shrink under any event sequence. -/
theorem runTrace_length_mono (t : List JobEvent) (s : JobBuffers) :
    s.stdout.length ≤ (runTrace s t).stdout.length ∧
    s.stderr.length ≤ (runTrace s t).stderr.length := by
  induction t generalizing s with
  | nil => exact ⟨Nat.le_refl _, Nat.le_refl _⟩
  | cons e t ih =>
    have hstep : s.stdout.length ≤ (applyEvent s e).stdout.length ∧
        s.stderr.length ≤ (applyEvent s e).stderr.length := by
      cases e with
      | output st c => cases st <;> simp [applyEvent]
      | done code => simp [applyEvent]
    have := ih (applyEvent s e)
    exact ⟨Nat.le_trans hstep.1 this.1, Nat.le_trans hstep.2 this.2⟩

/-- A set exit code stays set under any event sequence. -/
theorem runTrace_exitCode_mono (t : List JobEvent) (s : JobBuffers)
    (h : s.exitCode ≠ none) : (runTrace s t).exitCode ≠ none := by
  induction t generalizing s with
  | nil => exact h
  | cons e t ih =>
    refine ih (applyEvent s e) ?_
    cases e with
    | output st c => cases st <;> simpa [applyEvent] using h
    | done code => simp [applyEvent]

/-- C3: along any execution of `startCmd` — any interleaving of the two pump
loops followed by the reaper's `markDone` — buffer lengths are monotone
(append-only, never truncated), the running → completed transition is
monotonic, and from any intermediate point where the exit code is set, both
output buffers never change again. -/
theorem startCmd_buffers_monotone_frozen
    (outs errs : List (List Nat)) (sched : List Bool) (code : Int)
    (s0 : JobBuffers) (h0 : s0.exitCode = none)
    (t₁ t₂ : List JobEvent)
    (hsplit : startCmdTrace outs errs sched code = t₁ ++ t₂) :
    (runTrace s0 t₁).stdout.length ≤ (runTrace s0 (t₁ ++ t₂)).stdout.length ∧
    (runTrace s0 t₁).stderr.length ≤ (runTrace s0 (t₁ ++ t₂)).stderr.length ∧
    ((runTrace s0 t₁).exitCode ≠ none → (runTrace s0 (t₁ ++ t₂)).exitCode ≠ none) ∧
    ((runTrace s0 t₁).exitCode ≠ none →
      (runTrace s0 (t₁ ++ t₂)).stdout = (runTrace s0 t₁).stdout ∧
      (runTrace s0 (t₁ ++ t₂)).stderr = (runTrace s0 t₁).stderr) := by
  have happ : runTrace s0 (t₁ ++ t₂) = runTrace (runTrace s0 t₁) t₂ := by
    simp [runTrace, List.foldl_append]
  refine ⟨?_, ?_, ?_, ?_⟩
  · rw [happ]; exact (runTrace_length_mono t₂ (runTrace s0 t₁)).1
  · rw [happ]; exact (runTrace_length_mono t₂ (runTrace s0 t₁)).2
  · intro h; rw [happ]; exact runTrace_exitCode_mono t₂ _ h
  · intro h
    -- With the exit code set after t₁, the trailing part t₂ must be empty:
    -- the only `done` event of the trace is its very last element.
    rcases List.eq_nil_or_concat t₂ with ht2 | ⟨t₂', e, ht2⟩
    · subst ht2; simp
    · exfalso
      subst ht2
      rw [List.concat_eq_append, ← List.append_assoc] at hsplit
      unfold startCmdTrace at hsplit
      have hinj := List.append_inj' hsplit (by rfl)
      have hmix : mix JobEvent sched (outs.map (JobEvent.output false))
          (errs.map (JobEvent.output true)) = t₁ ++ t₂' := hinj.1
      have hall : (t₁ ++ t₂').all isOutputEvent = true := by
        rw [← hmix]
        refine mix_all isOutputEvent sched _ _ ?_ ?_ <;>
          simp [List.all_eq_true, isOutputEvent]
      have hall₁ : t₁.all isOutputEvent = true := by
        simp only [List.all_append, Bool.and_eq_true] at hall
        exact hall.1
      have := runTrace_exitCode_of_all_output t₁ s0 hall₁
      rw [this, h0] at h
      exact h rfl

/-- Witness for `startCmd_buffers_monotone_frozen` at a concrete trace
split. -/
theorem startCmd_buffers_monotone_frozen_witness :
    let s0 : JobBuffers := { stdout := [], stderr := [], exitCode := none }
    let t₁ : List JobEvent := [.output false [1, 2], .output true [3]]
    let t₂ : List JobEvent := [.output false [4], .done 7]
    (runTrace s0 t₁).stdout.length ≤ (runTrace s0 (t₁ ++ t₂)).stdout.length ∧
    (runTrace s0 t₁).stderr.length ≤ (runTrace s0 (t₁ ++ t₂)).stderr.length ∧
    ((runTrace s0 t₁).exitCode ≠ none → (runTrace s0 (t₁ ++ t₂)).exitCode ≠ none) ∧
    ((runTrace s0 t₁).exitCode ≠ none →
      (runTrace s0 (t₁ ++ t₂)).stdout = (runTrace s0 t₁).stdout ∧
      (runTrace s0 (t₁ ++ t₂)).stderr = (runTrace s0 t₁).stderr) :=
  startCmd_buffers_monotone_frozen [[1, 2], [4]] [[3]] [true, false] 7
    { stdout := [], stderr := [], exitCode := none } rfl
    [.output false [1, 2], .output true [3]] [.output false [4], .done 7] (by decide)

/-- Erasing a key that is absent leaves the registry unchanged. -/
theorem eraseJob_of_findJob_none (r : Registry) (key : String × String)
    (h : findJob r key = none) : eraseJob r key = r := by
  induction r with
  | nil => rfl
  | cons e rest ih =>
    obtain ⟨k, v⟩ := e
    by_cases hk : k = key
    · rw [findJob, if_pos hk] at h
      exact absurd h (by simp)
    · rw [findJob, if_neg hk] at h
      rw [eraseJob, if_neg hk, ih h]

/-- A `SubmitJob` that finds the key present returns `ErrIDAlreadyExists`
without invoking the runner and leaves the state untouched. -/
theorem submitJob_of_found
    (w : WorkerState) (ns id command : String) (args : List String)
    (rootFS : Option String) (freshId : String) (startOK : Bool) (pid : Int)
    (hshut : w.shutdown = false) (hid : id ≠ "")
    (hfound : findJob w.jobs (ns, id) ≠ none) :
    SubmitJob w ns id command args rootFS freshId startOK pid =
      (.error .errIDAlreadyExists, w, false) := by
  have hid' : (if id = "" then freshId else id) = id := if_neg hid
  unfold SubmitJob
  rw [if_neg (by simp [hshut])]
  simp only [hid']
  have hres : (submitReserve w (ns, id)).2 = true := by
    unfold submitReserve
    cases hf : findJob w.jobs (ns, id) with
    | none => exact absurd hf hfound
    | some v => simp [hf]
  simp [hres]

/-- C2: for every `(namespace, id)` key — (b) a `SubmitJob` that finds the
key present (placeholder included) returns `ErrIDAlreadyExists`, does not
invoke the runner, and leaves the registry untouched; (a) when the key is
free, the state in effect when the runner is invoked holds the placeholder
reservation under that key; (c) when the runner's start fails, the
reservation is removed and the registry is exactly as before the call. -/
theorem SubmitJob_reserves_and_restores
    (w : WorkerState) (ns id command : String) (args : List String)
    (rootFS : Option String) (freshId : String) (startOK : Bool) (pid : Int)
    (hshut : w.shutdown = false) (hid : id ≠ "") :
    (findJob w.jobs (ns, id) ≠ none →
      SubmitJob w ns id command args rootFS freshId startOK pid =
        (.error .errIDAlreadyExists, w, false)) ∧
    (findJob w.jobs (ns, id) = none →
      findJob (submitReserve w (ns, id)).1.jobs (ns, id) = some none ∧
      (startOK = false → (w.hasLimits = true ∨ rootFS.getD "" = "") →
        SubmitJob w ns id command args rootFS freshId startOK pid =
          (.error .startFailed, w, true))) := by
  have hid' : (if id = "" then freshId else id) = id := if_neg hid
  constructor
  · exact submitJob_of_found w ns id command args rootFS freshId startOK pid hshut hid
  · intro hfree
    have hres : submitReserve w (ns, id) =
        ({ w with jobs := ((ns, id), none) :: w.jobs }, false) := by
      unfold submitReserve
      rw [hfree]
    constructor
    · rw [hres]
      simp [findJob]
    · intro hfail hroot
      unfold SubmitJob
      rw [if_neg (by simp [hshut])]
      simp only [hid', hres]
      have hnoroot : ¬(w.hasLimits = false ∧ (({ newJobRec ns id command args with
          rootFS := rootFS.getD "" } : JobRec)).rootFS ≠ "") := by
        rcases hroot with h | h
        · simp [h]
        · simp [newJobRec, h]
      have herase : eraseJob (((ns, id), none) :: w.jobs) (ns, id) = w.jobs := by
        rw [eraseJob, if_pos rfl]
        exact eraseJob_of_findJob_none w.jobs (ns, id) hfree
      simp [hnoroot, hfail, herase]

/-- Witness for `SubmitJob_reserves_and_restores` at a concrete worker and a
failing runner start. -/
theorem SubmitJob_reserves_and_restores_witness :
    let w : WorkerState := { hasLimits := false, jobs := [], shutdown := false }
    findJob (submitReserve w ("client1", "job1")).1.jobs ("client1", "job1") = some none ∧
    SubmitJob w "client1" "job1" "/bin/true" [] none "fresh" false 0 =
      (.error .startFailed, w, true) := by
  intro w
  have h := (SubmitJob_reserves_and_restores w "client1" "job1" "/bin/true" [] none
    "fresh" false 0 rfl (by decide)).2 rfl
  exact ⟨h.1, h.2 rfl (Or.inr rfl)⟩

/-- C5: a first `Shutdown` call returns `nil` whenever the drain has
completed by the time the wait ends — including when the context has also
fired, thanks to the second non-blocking check — and returns the context's
error when the context fired while the drain was still incomplete. -/
theorem Shutdown_prefers_drained (noJobs ctxDone wgDone : Bool) :
    (wgDone = true → Shutdown false noJobs ctxDone wgDone = .ok) ∧
    (wgDone = false → ctxDone = true → noJobs = false →
      Shutdown false noJobs ctxDone wgDone = .ctxErr) := by
  constructor
  · intro h
    subst h
    cases noJobs <;> simp [Shutdown]
  · intro hw hc hn
    subst hw; subst hc; subst hn
    simp [Shutdown, ctxErrVal]

/-- Witness for `Shutdown_prefers_drained`: with both the context and the
drain fired, the result is `nil` (drained), not the context error. -/
theorem Shutdown_prefers_drained_witness :
    Shutdown false false true true = .ok :=
  (Shutdown_prefers_drained false true true).1 rfl

/-- C8 divergence: a `GetJob` call acquires the shutdown read lock twice and
never releases it, so the shutdown lock's state is not restored by the time
the call returns — the claim asserts one acquisition, released on return.
The imbalance holds on both paths of the function. -/
theorem getJob_shutdown_lock_unbalanced :
    (getJobLockTrace false).count .shutdownRLock = 2 ∧
    (getJobLockTrace false).count .shutdownRUnlock = 0 ∧
    (getJobLockTrace true).count .shutdownRLock = 2 ∧
    (getJobLockTrace true).count .shutdownRUnlock = 0 := by
  decide

/-- C10: every `Stop` call fires its sentinel before waiting and the firing
is never undone: the requested sentinel is fired in the post state, already
fired sentinels stay fired, and even when `Stop` returns the context's
cancellation error (with code 0) the requested sentinel remains fired. -/
theorem Stop_fires_sentinel_permanently (s : StopSentinels)
    (force ctxDone pickCtx : Bool) :
    (force = true → (JobStop s force ctxDone pickCtx).2.forceFired = true) ∧
    (force = false → (JobStop s force ctxDone pickCtx).2.stopFired = true) ∧
    (s.stopFired = true → (JobStop s force ctxDone pickCtx).2.stopFired = true) ∧
    (s.forceFired = true → (JobStop s force ctxDone pickCtx).2.forceFired = true) ∧
    ((JobStop s force ctxDone pickCtx).1.ctxCancelled = true →
      (JobStop s force ctxDone pickCtx).1.code = 0 ∧
      (if force then (JobStop s force ctxDone pickCtx).2.forceFired
       else (JobStop s force ctxDone pickCtx).2.stopFired) = true) := by
  cases force <;> cases ctxDone <;> cases pickCtx <;>
    simp [JobStop] <;>
    by_cases hd : s.doneFired <;> simp [hd]

/-- Witness for `Stop_fires_sentinel_permanently`: a soft `Stop` whose
context cancels still leaves the soft sentinel fired. -/
theorem Stop_fires_sentinel_permanently_witness :
    let s : StopSentinels :=
      { stopFired := false, forceFired := false, doneFired := false, exitCode := none }
    (JobStop s false true true).2.stopFired = true :=
  (Stop_fires_sentinel_permanently
    { stopFired := false, forceFired := false, doneFired := false, exitCode := none }
    false true true).2.1 rfl

/-- C7: every cgroup batch of the child-exec entrypoint targets one of the
cpu, memory, blkio controllers, and the ordered write sequence
`writeCGroupSettings` performs for it ends with the self-join write of the
string "0" to `cgroup.procs`. -/
theorem childExec_cgroup_last_write_self_join
    (la : JobLimitArgsM) (containerID : String) :
    ∀ b ∈ execLimitedChildCGroupBatches la,
      (b.1 = "cpu" ∨ b.1 = "memory" ∨ b.1 = "blkio") ∧
      (writeCGroupSettings containerID b.1 b.2).2.getLast? =
        some ("cgroup.procs", "0") := by
  intro b hb
  constructor
  · unfold execLimitedChildCGroupBatches at hb
    rcases List.mem_append.mp hb with h | h
    · rcases List.mem_append.mp h with h1 | h1
      · by_cases hc : la.cpuMaxPeriod > 0 ∧ la.cpuMaxQuota > 0
        · rw [if_pos hc] at h1
          simp only [List.mem_singleton] at h1
          subst h1
          exact Or.inl rfl
        · rw [if_neg hc] at h1
          simp at h1
      · by_cases hm : la.memoryMax > 0
        · rw [if_pos hm] at h1
          simp only [List.mem_singleton] at h1
          subst h1
          exact Or.inr (Or.inl rfl)
        · rw [if_neg hm] at h1
          simp at h1
    · by_cases hd : la.deviceIOMax ≠ []
      · rw [if_pos hd] at h
        simp only [List.mem_singleton] at h
        subst h
        exact Or.inr (Or.inr rfl)
      · rw [if_neg hd] at h
        simp at h
  · unfold writeCGroupSettings
    exact List.getLast?_concat _

/-- Witness for `childExec_cgroup_last_write_self_join` at the standard
limit configuration and its cpu batch. -/
theorem childExec_cgroup_last_write_self_join_witness :
    let b : String × List (String × String) :=
      ("cpu", [("cpu.cfs_period_us", "10000"), ("cpu.cfs_quota_us", "2000")])
    (b.1 = "cpu" ∨ b.1 = "memory" ∨ b.1 = "blkio") ∧
    (writeCGroupSettings "cid" b.1 b.2).2.getLast? = some ("cgroup.procs", "0") :=
  childExec_cgroup_last_write_self_join
    { cpuMaxPeriod := 10000, cpuMaxQuota := 2000, memoryMax := 52428800,
      deviceIOMax := [("8:0", 1048576)], rootMount := "" } "cid"
    ("cpu", [("cpu.cfs_period_us", "10000"), ("cpu.cfs_quota_us", "2000")])
    (by decide)

/-- C4 counterexample: ids are unique only per namespace, so when the
caller's own namespace also holds a job under the same id, a cross-namespace
`GetJob` for that id does not yield `NotFound` — it returns the caller's own
job. Here `client1` owns a job with id `X`, `client2`'s certificate OU
differs from that namespace, yet `client2`'s `GetJob("X")` succeeds. -/
theorem getJob_cross_namespace_same_id_succeeds :
    let jobA : JobRec :=
      { ns := "client1", id := "X", command := "/bin/a", args := [],
        rootFS := "", pid := 1, stdout := [], stderr := [], exitCode := none }
    let jobB : JobRec :=
      { ns := "client2", id := "X", command := "/bin/b", args := [],
        rootFS := "", pid := 2, stdout := [], stderr := [], exitCode := none }
    let w : WorkerState :=
      { hasLimits := false,
        jobs := [(("client1", "X"), some jobA), (("client2", "X"), some jobB)],
        shutdown := false }
    jobA.ns ≠ "client2" ∧
    rpcGetJob w (some ["client2"]) "X" false false = .ok (toProtoJob jobB false false) := by
  constructor
  · decide
  · rfl

/-- C4 (amended): a job `J` of namespace `otherNs` is invisible to a caller
whose certificate OU names a different namespace: provided the caller's own
namespace holds no entry under the job's id, `GetJob`, `StopJob`, and
`StreamJobOutput` for that id all fail with `NotFound`. (Without that
proviso the RPCs operate on the caller's own same-id job, never on `J`.) -/
theorem rpc_namespace_isolation
    (w : WorkerState) (ous : List String) (jobId otherNs : String) (J : JobRec)
    (includeStdout includeStderr stopDeadline : Bool)
    (rest : JobRec → Except StatusCode (List Frame))
    (hshut : w.shutdown = false) (hid : jobId ≠ "")
    (hJ : findJob w.jobs (otherNs, jobId) = some (some J))
    (hne : otherNs ≠ ous.headD "")
    (hmiss : findJob w.jobs (ous.headD "", jobId) = none ∨
             findJob w.jobs (ous.headD "", jobId) = some none) :
    rpcGetJob w (some ous) jobId includeStdout includeStderr = .error .notFound ∧
    rpcStopJob w (some ous) jobId stopDeadline = .error .notFound ∧
    rpcStreamJobOutput w (some ous) jobId rest = .error .notFound := by
  have hlookup : svcGetJob w (some ous) jobId = .error .notFound := by
    unfold svcGetJob
    rw [if_neg hid]
    show (match GetJob w (ous.headD "") jobId with
      | .error .errShutdown => .error .failedPrecondition
      | .error _ => .error .unknownErr
      | .ok none => .error .notFound
      | .ok (some j) => .ok j) = Except.error StatusCode.notFound
    unfold GetJob
    rw [if_neg (by simp [hshut])]
    rcases hmiss with h | h <;> rw [h]
  exact ⟨by unfold rpcGetJob; rw [hlookup],
         by unfold rpcStopJob; rw [hlookup],
         by unfold rpcStreamJobOutput; rw [hlookup]⟩

/-- Witness for `rpc_namespace_isolation`: `client1` owns job `Y`,
`client2`'s namespace has no job `Y`, and all three RPCs from `client2`
yield `NotFound`. -/
theorem rpc_namespace_isolation_witness :
    let jobY : JobRec :=
      { ns := "client1", id := "Y", command := "/bin/a", args := [],
        rootFS := "", pid := 1, stdout := [], stderr := [], exitCode := none }
    let w : WorkerState :=
      { hasLimits := false, jobs := [(("client1", "Y"), some jobY)],
        shutdown := false }
    rpcGetJob w (some ["client2"]) "Y" true true = .error .notFound ∧
    rpcStopJob w (some ["client2"]) "Y" false = .error .notFound ∧
    rpcStreamJobOutput w (some ["client2"]) "Y" (fun _ => .ok []) = .error .notFound := by
  intro jobY w
  exact rpc_namespace_isolation w ["client2"] "Y" "client1" jobY true true false
    (fun _ => .ok []) rfl (by decide) (by rfl) (by decide) (Or.inl (by rfl))

/-- C9: while a `(namespace, id)` key is reserved with the nil placeholder,
`Worker.GetJob` returns a nil job with no error, the RPC adapter reports
`NotFound` for it, and a `SubmitJob` under the same key fails with
`ErrIDAlreadyExists` without invoking the runner — reserved-but-unstarted
ids are invisible to lookups yet block reuse. -/
theorem placeholder_invisible_but_blocks_reuse
    (w : WorkerState) (ns id command : String) (args : List String)
    (rootFS : Option String) (freshId : String) (startOK : Bool) (pid : Int)
    (includeStdout includeStderr : Bool)
    (hshut : w.shutdown = false) (hid : id ≠ "")
    (hplaceholder : findJob w.jobs (ns, id) = some none) :
    GetJob w ns id = .ok none ∧
    rpcGetJob w (some [ns]) id includeStdout includeStderr = .error .notFound ∧
    SubmitJob w ns id command args rootFS freshId startOK pid =
      (.error .errIDAlreadyExists, w, false) := by
  have hget : GetJob w ns id = .ok none := by
    unfold GetJob
    rw [if_neg (by simp [hshut]), hplaceholder]
  have hlookup : svcGetJob w (some [ns]) id = .error .notFound := by
    unfold svcGetJob
    rw [if_neg hid]
    show (match GetJob w ns id with
      | .error .errShutdown => .error .failedPrecondition
      | .error _ => .error .unknownErr
      | .ok none => .error .notFound
      | .ok (some j) => .ok j) = Except.error StatusCode.notFound
    rw [hget]
  refine ⟨hget, ?_, ?_⟩
  · unfold rpcGetJob
    rw [hlookup]
  · exact submitJob_of_found w ns id command args rootFS freshId startOK pid hshut hid
      (by rw [hplaceholder]; simp)

/-- Witness for `placeholder_invisible_but_blocks_reuse` at a concrete
reserved key. -/
theorem placeholder_invisible_but_blocks_reuse_witness :
    let w : WorkerState :=
      { hasLimits := false, jobs := [(("client1", "pend"), none)],
        shutdown := false }
    GetJob w "client1" "pend" = .ok none ∧
    rpcGetJob w (some ["client1"]) "pend" false false = .error .notFound ∧
    SubmitJob w "client1" "pend" "/bin/true" [] none "fresh" true 5 =
      (.error .errIDAlreadyExists, w, false) := by
  intro w
  exact placeholder_invisible_but_blocks_reuse w "client1" "pend" "/bin/true" [] none
    "fresh" true 5 false false rfl (by decide) (by rfl)

set_option maxRecDepth 100000 in
/-- C1: evaluation of `streamOutput` at the late-burst schedule. The
`from_beginning=true` stream snapshots `past_total = 0`, then the job
appends 1025 bytes and completes before the first live read. That read
returns a 1024-byte chunk together with the set exit code, and the producer
returns immediately after sending it (`if exitCode != nil { return nil }`
runs before the drain has reached the total), dropping the final byte: the
past frames do concatenate to the `past_total` prefix, but past + live
frames concatenate to 1024 bytes while the stream's final contents (the
buffer at completion) hold 1025 — contradicting the claim's second
conjunct. -/
theorem streamOutput_drops_tail_on_completion :
    streamOutput false lateBurstObs true 4 =
      some [{ stderr := false, data := List.replicate 1024 7, past := false }] ∧
    (lateBurstObs 1).2 = some 0 ∧
    pastConcat [({ stderr := false, data := List.replicate 1024 7, past := false } : Frame)] =
      List.take (readOutput (lateBurstObs 0).1 (lateBurstObs 0).2 0 0).total
        (lateBurstObs 1).1 ∧
    allConcat [({ stderr := false, data := List.replicate 1024 7, past := false } : Frame)] ≠
      (lateBurstObs 1).1 := by
  have hfinal : (lateBurstObs 1).1 = List.replicate 1025 7 := rfl
  refine ⟨rfl, rfl, rfl, fun h => ?_⟩
  have hlen := congrArg List.length h
  rw [hfinal] at hlen
  simp [allConcat] at hlen

end Teleworker
